import Mathlib

/-!
Verification of the version-resolution engine of elm-forest.

The definitions below are a shallow embedding of the TypeScript sources
(src/src/forest.ts, src/src/lib/forest.ts).  JavaScript machine-level
behaviour that the source relies on is embedded explicitly:

* JS relational operators on arrays coerce both operands to strings
  (comma-joined element representations) and compare those strings by
  UTF-16 code units; this is modelled by jsKey/charListLt below.
* A repeated single-character capture group, as in the major component
  pattern of VERSION_PATTERN, retains only the last iteration; the
  embedded parser therefore keeps only the last digit of the major run.
* Number.MAX_SAFE_INTEGER is 9007199254740991.
-/

/-- JS character class \d, that is the digits 0-9. -/
def isDigitChar (c : Char) : Bool := '0' ≤ c && c ≤ '9'

/-- JS character class \s restricted to the characters that can occur in
the strings handled here (space, tab, line feed, carriage return,
vertical tab, form feed, no-break space).  The remaining Unicode space
separators never occur in manifests or version strings. -/
def isSpaceChar (c : Char) : Bool :=
  c = ' ' || c = '\t' || c = '\n' || c = '\r' ||
  c = Char.ofNat 11 || c = Char.ofNat 12 || c = Char.ofNat 160

/-- Numeric value of a single decimal digit character. -/
def digitToNat (c : Char) : Nat := c.toNat - '0'.toNat

/-- Decimal value of a digit string; on the empty list this is 0, which
mirrors the source defaulting absent regex groups with parseInt of the
string "0". -/
def digitsToNat (l : List Char) : Nat :=
  l.foldl (fun a c => 10 * a + digitToNat c) 0

/-- A parsed version is the array
[major, minor, patch, testStage, stageIncrementor] built by
parseVersionString in src/src/forest.ts. -/
abbrev ParsedVersion := List Nat

/-- Embeds versionStageToInt of src/src/forest.ts (lines 226-237):
stable or no stage gives 0, alpha gives MAX_SAFE_INTEGER - 1, beta gives
MAX_SAFE_INTEGER - 2, any other token gives MAX_SAFE_INTEGER - 3. -/
def versionStageToInt (name : Option String) : Nat :=
  match name with
  | none => 0
  | some s =>
    if s = "stable" then 0
    else if s = "alpha" then 9007199254740990
    else if s = "beta" then 9007199254740989
    else 9007199254740988

/-- The minor/patch part of VERSION_PATTERN:
(?:(?:\.)(\d+)(?:(?:\.)(\d+))?)? applied after the major digit run.
Returns (minor, patch, rest).  A leading dot that is not followed by
digits makes the whole anchored pattern fail, because the leftover dot
can never be consumed by the stage group or the end anchor. -/
def parseMinorPatch (r : List Char) : Option (Nat × Nat × List Char) :=
  match r with
  | '.' :: t =>
    let m := t.takeWhile isDigitChar
    let r2 := t.dropWhile isDigitChar
    if m.isEmpty then none
    else
      match r2 with
      | '.' :: t2 =>
        let p := t2.takeWhile isDigitChar
        let r3 := t2.dropWhile isDigitChar
        if p.isEmpty then none
        else some (digitsToNat m, digitsToNat p, r3)
      | _ => some (digitsToNat m, 0, r2)
  | _ => some (0, 0, r)

/-- The stage part of VERSION_PATTERN: (?:-([^\d]+)(\d+)?)?$ .
Returns (stage token, stage incrementor). -/
def parseStage (r : List Char) : Option (Option String × Nat) :=
  match r with
  | [] => some (none, 0)
  | '-' :: t =>
    let st := t.takeWhile (fun c => !isDigitChar c)
    let r2 := t.dropWhile (fun c => !isDigitChar c)
    if st.isEmpty then none
    else
      let inc := r2.takeWhile isDigitChar
      let r3 := r2.dropWhile isDigitChar
      if r3.isEmpty then some (some (String.mk st), digitsToNat inc) else none
  | _ => none

/-- Embeds parseVersionString of src/src/forest.ts (lines 207-221),
matching against VERSION_PATTERN (line 45).  The major group (\d)+ is a
repeated one-character capture, so only its last digit survives into
match[1]; minor, patch and incrementor default to 0. -/
def parseVersionString (version : String) : Option ParsedVersion :=
  let cs := version.data
  let majD := cs.takeWhile isDigitChar
  if majD.isEmpty then none
  else
    match parseMinorPatch (cs.dropWhile isDigitChar) with
    | none => none
    | some (minor, patch, r2) =>
      match parseStage r2 with
      | none => none
      | some (stage, incr) =>
        some [digitToNat (majD.getLastD '0'), minor, patch,
              versionStageToInt stage, incr]

/-- Code-unit comparison of two character lists; this is exactly the JS
string relational comparison for the ASCII strings produced below. -/
def charListLt : List Char → List Char → Bool
  | [], [] => false
  | [], _ :: _ => true
  | _ :: _, [] => false
  | a :: as, b :: bs =>
    if a < b then true else if b < a then false else charListLt as bs

/-- Comma-joined rendering of a list of rendered elements, as produced
by the implicit Array.prototype.toString coercion. -/
def joinCommaChars : List (List Char) → List Char
  | [] => []
  | [x] => x
  | x :: y :: t => x ++ ',' :: joinCommaChars (y :: t)

/-- The string a JS array of numbers coerces to in a relational
comparison. -/
def jsKey (t : ParsedVersion) : List Char :=
  joinCommaChars (t.map (fun n => (Nat.repr n).data))

/-- JS a < v for number arrays a, v: both coerce to strings, compared by
code units. -/
def jsLtB (a v : ParsedVersion) : Bool := charListLt (jsKey a) (jsKey v)

/-- JS a <= v for number arrays: the negation of v < a. -/
def jsLeB (a v : ParsedVersion) : Bool := !charListLt (jsKey v) (jsKey a)

/-- JS a > v for number arrays: v < a. -/
def jsGtB (a v : ParsedVersion) : Bool := charListLt (jsKey v) (jsKey a)

/-- JS a >= v for number arrays: the negation of a < v. -/
def jsGeB (a v : ParsedVersion) : Bool := !charListLt (jsKey a) (jsKey v)

/-- Modelled from the spec: tuples compare element-wise, left to right,
in numeric lexicographic order over the five components.  This is the
ordering the spec claims the code implements; it is compared against the
jsLtB family actually used by the code. -/
def specTupleLt : List Nat → List Nat → Bool
  | [], [] => false
  | [], _ :: _ => true
  | _ :: _, [] => false
  | a :: as, b :: bs =>
    if a < b then true else if b < a then false else specTupleLt as bs

/-- Modelled from the spec: element-wise less-or-equal, the reflexive
closure of specTupleLt. -/
def specTupleLe (a b : List Nat) : Bool := specTupleLt a b || a == b

/-- Claim C1: the claim states that a stable version strictly outranks
any stage-tagged version at equal (major, minor, patch).  Evaluating the
code at the failing input 1.0.0 versus 1.0.0-beta shows the opposite:
versionStageToInt gives stable the rank 0 and beta the rank
9007199254740989, so the stable tuple ranks strictly BELOW the beta
tuple, both under the JS array comparison the code performs and under
the element-wise numeric order the spec describes. -/
theorem claim_C1 :
    parseVersionString "1.0.0" = some [1, 0, 0, 0, 0]
    ∧ parseVersionString "1.0.0-beta" = some [1, 0, 0, 9007199254740989, 0]
    ∧ versionStageToInt none = 0
    ∧ versionStageToInt (some "beta") = 9007199254740989
    ∧ jsGtB [1, 0, 0, 0, 0] [1, 0, 0, 9007199254740989, 0] = false
    ∧ jsLtB [1, 0, 0, 0, 0] [1, 0, 0, 9007199254740989, 0] = true
    ∧ specTupleLt [1, 0, 0, 0, 0] [1, 0, 0, 9007199254740989, 0] = true := by
  decide

/-- Claim C2: the claim states that beta outranks alpha at equal
(major, minor, patch).  Evaluating the code at the failing input
1.0.0-beta versus 1.0.0-alpha shows the opposite: versionStageToInt
gives alpha the rank 9007199254740990 and beta the smaller rank
9007199254740989, so the beta tuple ranks strictly BELOW the alpha
tuple under both orderings. -/
theorem claim_C2 :
    parseVersionString "1.0.0-alpha" = some [1, 0, 0, 9007199254740990, 0]
    ∧ parseVersionString "1.0.0-beta" = some [1, 0, 0, 9007199254740989, 0]
    ∧ versionStageToInt (some "alpha") = 9007199254740990
    ∧ versionStageToInt (some "beta") = 9007199254740989
    ∧ jsGtB [1, 0, 0, 9007199254740989, 0] [1, 0, 0, 9007199254740990, 0] = false
    ∧ jsLtB [1, 0, 0, 9007199254740989, 0] [1, 0, 0, 9007199254740990, 0] = true
    ∧ specTupleLt [1, 0, 0, 9007199254740989, 0] [1, 0, 0, 9007199254740990, 0] = true := by
  decide

/-- Error kinds of the ForestInternal.Errors enum in src/src/forest.ts
(lines 62-87). -/
inductive Errors where
  | NoElmVersions
  | NpmCommunicationError
  | BinPathWriteFailed
  | BinPathReadFailed
  | BadElmPackage
  | NoVersionConstraint
  | ParseConstraintFailed
  | NoMatchingVersion
  | VersionCacheReadFail
  | VersionCacheWriteFail
  | NoElmProject
  | NpmInitFailed
  | NpmElmInstallFailed
  | NpmBinFailed
  | NpmRunFailed
  | NpmCommandFailed
  | ElmCommandFailed
  | VersionNoExactMatch
  | RemovalFailed
  | IOError
deriving DecidableEq, Repr

/-- The ExpandedVersion class of src/src/forest.ts (lines 183-198):
expanded string plus the raw string it came from (the source spells the
field unexpended).  The parsed field is computed from expanded in the
constructor and is recovered here by ExpandedVersion.parsed. -/
structure ExpandedVersion where
  expanded : String
  unexpended : String
deriving DecidableEq, Repr

/-- new ExpandedVersion(expanded) with the unexpanded argument omitted,
so the raw field defaults to the expanded string. -/
def ExpandedVersion.ofString (e : String) : ExpandedVersion := ⟨e, e⟩

/-- The parsed field computed in the ExpandedVersion constructor. -/
def ExpandedVersion.parsed (v : ExpandedVersion) : Option ParsedVersion :=
  parseVersionString v.expanded

/-- JS String.prototype.startsWith for the ASCII strings handled here. -/
def strStartsWith (s pre : String) : Bool := pre.data.isPrefixOf s.data

/-- The loop of findSuitable in src/src/forest.ts (lines 341-348): walk
the pool, return an exact match immediately, otherwise remember the
first entry whose expanded form starts with the dotted request. -/
def findSuitableLoop (version dotted : String) :
    List ExpandedVersion → Option ExpandedVersion → Option ExpandedVersion
  | [], dottedMatch => dottedMatch
  | item :: rest, dottedMatch =>
    if item.expanded == version then some (ExpandedVersion.ofString version)
    else
      findSuitableLoop version dotted rest
        (if dottedMatch.isNone && strStartsWith item.expanded dotted then some item
         else dottedMatch)

/-- Embeds findSuitable of src/src/forest.ts (lines 330-351). -/
def findSuitable (version : String) (pool : List ExpandedVersion) :
    Option ExpandedVersion :=
  if version == "latest" then pool.head?
  else findSuitableLoop version (version ++ ".") pool none

theorem findSuitableLoop_spec (version dotted : String) :
    ∀ (pool : List ExpandedVersion) (acc : Option ExpandedVersion),
      findSuitableLoop version dotted pool acc =
        if pool.any (fun i => i.expanded == version) then
          some (ExpandedVersion.ofString version)
        else
          match acc with
          | some a => some a
          | none => pool.find? (fun i => strStartsWith i.expanded dotted) := by
  intro pool
  induction pool with
  | nil =>
    intro acc
    cases acc <;> simp [findSuitableLoop]
  | cons i rest ih =>
    intro acc
    cases hb : (i.expanded == version) with
    | true =>
      simp [findSuitableLoop, hb]
    | false =>
      cases acc with
      | some a =>
        simp [findSuitableLoop, hb, ih]
      | none =>
        cases hs : strStartsWith i.expanded dotted with
        | true =>
          simp [findSuitableLoop, hb, hs, ih, List.find?]
        | false =>
          simp [findSuitableLoop, hb, hs, ih, List.find?]

/-- Claim C4: findSuitable returns pool[0] (or nothing on an empty pool)
for the request "latest"; otherwise, when some pool entry equals the
request exactly, a version with that expanded string; otherwise the
first pool entry, in pool order, whose expanded form starts with the
request followed by a dot, and nothing when no entry qualifies. -/
theorem claim_C4 :
    ∀ (version : String) (pool : List ExpandedVersion),
      findSuitable version pool =
        if version == "latest" then pool.head?
        else if pool.any (fun i => i.expanded == version) then
          some (ExpandedVersion.ofString version)
        else pool.find? (fun i => strStartsWith i.expanded (version ++ ".")) := by
  intro version pool
  cases hl : (version == "latest") with
  | true => simp [findSuitable, hl]
  | false => simp [findSuitable, hl, findSuitableLoop_spec]

/-- A constraint is a predicate over a parsed version tuple, the
Constraint type of src/src/forest.ts (line 104). -/
abbrev Constraint := ParsedVersion → Bool

/-- The literal sub-pattern (?:\d+(?:\.\d+){0,2}) of the constraint
regexes: a digit run followed by up to two dot-digit groups, matched
greedily.  Returns the matched literal and the rest.  Greedy matching is
equivalent to the backtracking regex here: giving digits back only moves
a digit or a dot to the front of the rest, and neither can start the
required whitespace that follows in the first pattern, while in the
second pattern nothing follows the literal at all. -/
def matchLit (cs : List Char) : Option (List Char × List Char) :=
  let d1 := cs.takeWhile isDigitChar
  let r1 := cs.dropWhile isDigitChar
  if d1.isEmpty then none
  else
    match r1 with
    | '.' :: t =>
      let d2 := t.takeWhile isDigitChar
      let r2 := t.dropWhile isDigitChar
      if d2.isEmpty then some (d1, r1)
      else
        match r2 with
        | '.' :: t2 =>
          let d3 := t2.takeWhile isDigitChar
          let r3 := t2.dropWhile isDigitChar
          if d3.isEmpty then some (d1 ++ '.' :: d2, r2)
          else some (d1 ++ '.' :: d2 ++ '.' :: d3, r3)
        | _ => some (d1 ++ '.' :: d2, r2)
    | _ => some (d1, r1)

/-- The operator alternation (\<=|\>=|\<|\>): alternatives are tried in
order, so a leading <= or >= is preferred over < or >. -/
def matchOp (cs : List Char) : Option (String × List Char) :=
  match cs with
  | '<' :: '=' :: r => some ("<=", r)
  | '>' :: '=' :: r => some (">=", r)
  | '<' :: r => some ("<", r)
  | '>' :: r => some (">", r)
  | _ => none

/-- Matching the first constraint regex
((?:\d+(?:\.\d+){0,2}))\s+(\<=|\>=|\<|\>)\s+v of src/src/forest.ts
(line 246) at one start position; returns the literal and operator
captures. -/
def matchFirstAt (cs : List Char) : Option (List Char × String) :=
  match matchLit cs with
  | none => none
  | some (lit, r1) =>
    let ws1 := r1.takeWhile isSpaceChar
    let r2 := r1.dropWhile isSpaceChar
    if ws1.isEmpty then none
    else
      match matchOp r2 with
      | none => none
      | some (op, r3) =>
        let ws2 := r3.takeWhile isSpaceChar
        let r4 := r3.dropWhile isSpaceChar
        if ws2.isEmpty then none
        else
          match r4 with
          | 'v' :: _ => some (lit, op)
          | _ => none

/-- Matching the second constraint regex
v\s+(\<=|\>=|\<|\>)\s+((?:\d+(?:\.\d+){0,2})) of src/src/forest.ts
(line 247) at one start position; returns the operator and literal
captures. -/
def matchSecondAt (cs : List Char) : Option (String × List Char) :=
  match cs with
  | 'v' :: r0 =>
    let ws1 := r0.takeWhile isSpaceChar
    let r1 := r0.dropWhile isSpaceChar
    if ws1.isEmpty then none
    else
      match matchOp r1 with
      | none => none
      | some (op, r2) =>
        let ws2 := r2.takeWhile isSpaceChar
        let r3 := r2.dropWhile isSpaceChar
        if ws2.isEmpty then none
        else
          match matchLit r3 with
          | none => none
          | some (lit, _) => some (op, lit)
  | _ => none

/-- Unanchored search for the first regex: the leftmost position where
the pattern matches, as String.prototype.match performs it. -/
def searchFirst : List Char → Option (List Char × String)
  | [] => none
  | c :: cs =>
    match matchFirstAt (c :: cs) with
    | some r => some r
    | none => searchFirst cs

/-- Unanchored search for the second regex. -/
def searchSecond : List Char → Option (String × List Char)
  | [] => none
  | c :: cs =>
    match matchSecondAt (c :: cs) with
    | some r => some r
    | none => searchSecond cs

/-- The alwaysFail predicate of parseConstraints (line 259). -/
def alwaysFail : Constraint := fun _ => false

/-- The firstOp dictionary of parseConstraints (lines 261-266): the
left literal a compares literal-to-v with the JS array relational
operators. -/
def firstOpFn (op : String) (a : ParsedVersion) : Constraint :=
  if op = "<" then fun v => jsLtB a v
  else if op = "<=" then fun v => jsLeB a v
  else if op = ">" then fun v => jsGtB a v
  else fun v => jsGeB a v

/-- The secondOp dictionary of parseConstraints (lines 267-272): the
right literal a compares v-to-literal. -/
def secondOpFn (op : String) (a : ParsedVersion) : Constraint :=
  if op = "<" then fun v => jsLtB v a
  else if op = "<=" then fun v => jsLeB v a
  else if op = ">" then fun v => jsGtB v a
  else fun v => jsGeB v a

/-- Embeds parseConstraints of src/src/forest.ts (lines 245-285): both
regexes must match, the captured literals are parsed with
parseVersionString, and an unparseable literal degrades that side to
alwaysFail. -/
def parseConstraints (constraint : String) : Option (List Constraint) :=
  match searchFirst constraint.data, searchSecond constraint.data with
  | some (lit1, op1), some (op2, lit2) =>
    let firstVersion := parseVersionString (String.mk lit1)
    let secondVersion := parseVersionString (String.mk lit2)
    some
      [match firstVersion with
       | some a => firstOpFn op1 a
       | none => alwaysFail,
       match secondVersion with
       | some a => secondOpFn op2 a
       | none => alwaysFail]
  | _, _ => none

/-- The VersionConstraint class of src/src/forest.ts (lines 160-178). -/
structure VersionConstraint where
  constraints : List Constraint

/-- VersionConstraint.match: false when the version failed to parse,
otherwise the conjunction of all constraint predicates. -/
def VersionConstraint.matchVersion (c : VersionConstraint)
    (version : ExpandedVersion) : Bool :=
  match version.parsed with
  | none => false
  | some t => c.constraints.all (fun check => check t)

/-- A JSON value as read from a manifest or the version cache file. -/
inductive JValue where
  | jstr (s : String)
  | jnum (n : Int)
  | jbool (b : Bool)
  | jnull
  | jarr (l : List JValue)

/-- How the queryConstraints promise of src/src/forest.ts (lines
116-157) settles.  Every error path of that function is a throw inside
the jsonfile.readFile callback, which runs after the promise executor
has returned; such a throw escapes the promise and terminates the
process through the uncaughtException handler.  crashed therefore
records the ForestError name that reaches the fatal handler and the
generic exit - the caller's promise never settles with it. -/
inductive QueryOutcome where
  | resolved (c : VersionConstraint)
  | crashed (e : Errors)

/-- Embeds ElmPackage.queryConstraints as a function of the manifest
read result: none models a jsonfile read error, some none a missing
elm-version key, and some (some value) the value found under the key.
Read error, missing key, non-string value and unparseable constraint
are each thrown inside the read callback and so crash the process with
their respective error name; only the success path resolves. -/
def queryConstraints (readResult : Option (Option JValue)) : QueryOutcome :=
  match readResult with
  | none => .crashed .BadElmPackage
  | some none => .crashed .NoVersionConstraint
  | some (some v) =>
    match v with
    | .jstr s =>
      match parseConstraints s with
      | none => .crashed .ParseConstraintFailed
      | some cs => .resolved ⟨cs⟩
    | _ => .crashed .ParseConstraintFailed

/-- The flow of Forest.current: parse a constraint string and test one
version against it, combining parseConstraints with
VersionConstraint.matchVersion. -/
def constraintMatches (cstr vstr : String) : Option Bool :=
  (parseConstraints cstr).map
    (fun cs => (VersionConstraint.mk cs).matchVersion (.ofString vstr))

/-- Claim C6: the claim states that a one-sided constraint string
never produces a constraint and that the failure is surfaced to the
caller as ParseConstraintFailed.  The first half holds and is proved
here: parseConstraints returns null for every string matching only one
of the two regexes, so a one-sided constraint value is never built.
The second half fails on the code: evaluating queryConstraints at such
a string shows the ForestError named ParseConstraintFailed being
thrown inside the jsonfile.readFile callback, which crashes the
process through the uncaughtException handler instead of rejecting the
caller's promise - the same callback-throw defect the install model
exhibits for BinPathWriteFailed. -/
theorem claim_C6 :
    ∀ c : String,
      (searchFirst c.data).isSome ≠ (searchSecond c.data).isSome →
      parseConstraints c = none
      ∧ queryConstraints (some (some (JValue.jstr c))) =
          QueryOutcome.crashed Errors.ParseConstraintFailed := by
  intro c h
  cases hf : searchFirst c.data with
  | none =>
    cases hs : searchSecond c.data with
    | none => simp [hf, hs] at h
    | some s =>
      have hp : parseConstraints c = none := by
        simp [parseConstraints, hf, hs]
      exact ⟨hp, by simp [queryConstraints, hp]⟩
  | some f =>
    cases hs : searchSecond c.data with
    | none =>
      have hp : parseConstraints c = none := by
        simp [parseConstraints, hf, hs]
      exact ⟨hp, by simp [queryConstraints, hp]⟩
    | some s => simp [hf, hs] at h

/-- Witness for claim C6 at the one-sided constraint "0.18.0 <= v": the
left regex matches, the right one does not, and parsing fails. -/
theorem claim_C6_witness :
    (searchFirst ("0.18.0 <= v").data).isSome
      ≠ (searchSecond ("0.18.0 <= v").data).isSome
    ∧ parseConstraints "0.18.0 <= v" = none :=
  ⟨by decide, (claim_C6 "0.18.0 <= v" (by decide)).1⟩

/-- Claim C3: the claim states that the predicates built by
parseConstraints decide the comparisons by numeric element-wise order.
Evaluating the code at the failing input shows otherwise: the JS
relational operators coerce the tuple arrays to comma-joined strings,
so the constraint "0.9.0 <= v < 1.0.0" rejects version 0.18.0 even
though its tuple lies in the range element-wise, because the string
"0,9,0,0,0" compares above "0,18,0,0,0". -/
theorem claim_C3 :
    parseVersionString "0.9.0" = some [0, 9, 0, 0, 0]
    ∧ parseVersionString "0.18.0" = some [0, 18, 0, 0, 0]
    ∧ specTupleLe [0, 9, 0, 0, 0] [0, 18, 0, 0, 0] = true
    ∧ specTupleLt [0, 18, 0, 0, 0] [1, 0, 0, 0, 0] = true
    ∧ firstOpFn "<=" [0, 9, 0, 0, 0] [0, 18, 0, 0, 0] = false
    ∧ jsLeB [0, 9, 0, 0, 0] [0, 18, 0, 0, 0] = false
    ∧ constraintMatches "0.9.0 <= v < 1.0.0" "0.18.0" = some false := by
  refine ⟨by decide, by decide, by decide, by decide, ?_, by decide, ?_⟩
  · simp [firstOpFn]
    decide
  · decide

/-- Extracts the string of a JSON string value; models the isString
filter of queryVersionCache. -/
def jstrVal : JValue → Option String
  | .jstr s => some s
  | _ => none

/-- Embeds the serialization step of writeVersionCache in
src/src/forest.ts (lines 453-477): the unpacked array of expanded
strings that jsonfile writes to versions.json. -/
def writeVersionCache (versions : List ExpandedVersion) : JValue :=
  .jarr (versions.map (fun v => .jstr v.expanded))

/-- Embeds queryVersionCache of src/src/forest.ts (lines 483-516) as a
function of the cache file content: none models a read error; a
non-array value is the corrupted-cache rejection; an array is filtered
to its string entries, each promoted with new ExpandedVersion. -/
def queryVersionCache (file : Option JValue) :
    Except Errors (List ExpandedVersion) :=
  match file with
  | none => .error .VersionCacheReadFail
  | some (.jarr arr) =>
    .ok ((arr.filterMap jstrVal).map ExpandedVersion.ofString)
  | some _ => .error .VersionCacheReadFail

/-- Claim C9: reading back a written cache yields the same expanded
version strings in the same order, and reading any array filters out
its non-string entries. -/
theorem claim_C9 :
    (∀ versions : List ExpandedVersion,
      queryVersionCache (some (writeVersionCache versions)) =
        .ok (versions.map (fun v => ExpandedVersion.ofString v.expanded))
      ∧ (versions.map (fun v => ExpandedVersion.ofString v.expanded)).map
          ExpandedVersion.expanded = versions.map ExpandedVersion.expanded)
    ∧ (∀ arr : List JValue,
        queryVersionCache (some (.jarr arr)) =
          .ok ((arr.filterMap jstrVal).map ExpandedVersion.ofString)) := by
  constructor
  · intro versions
    have hfil : ∀ vs : List ExpandedVersion,
        List.filterMap jstrVal (vs.map (fun v => JValue.jstr v.expanded)) =
          vs.map ExpandedVersion.expanded := by
      intro vs
      induction vs with
      | nil => rfl
      | cons v t ih => simp [jstrVal, ih]
    constructor
    · simp [queryVersionCache, writeVersionCache, hfil, List.map_map,
        Function.comp]
    · simp [ExpandedVersion.ofString]
  · intro arr
    rfl

/-- Outcomes of the external steps an installation performs: whether
mkdirp, each npm command, the binpath write and the rimraf removal
succeed. -/
structure StepEnv where
  mkdirOk : Bool
  npmInitOk : Bool
  npmInstallOk : Bool
  npmBinOk : Bool
  binWriteOk : Bool
  rimrafOk : Bool
deriving DecidableEq, Repr

/-- Filesystem state threaded through the installation functions: the
per-version storage directories that exist under the forest root, and a
count of npm commands that have been spawned. -/
structure RunState where
  dirs : List String
  npmRuns : Nat
deriving DecidableEq, Repr

/-- How a promise chain of src/src/forest.ts settles, as seen by the
caller.  crashed models a throw inside a Node event-loop callback:
such a throw escapes every promise and terminates the process through
the uncaughtException handler, so the chain never settles at all. -/
inductive InstallResult where
  | resolved (version : String) (installed : Bool)
  | rejected (e : Errors)
  | rejectedRaw
  | crashed
deriving DecidableEq, Repr

/-- Embeds isElmInstalled of src/src/forest.ts (lines 652-676) once its
promise is awaited: the version directory exists. -/
def isElmInstalledB (st : RunState) (v : String) : Bool := st.dirs.contains v

/-- Embeds removeElmVersion of src/src/forest.ts (lines 681-709):
resolve false when not installed, otherwise rimraf the directory,
resolving true or rejecting RemovalFailed. -/
def removeElmVersion (env : StepEnv) (st : RunState) (v : String) :
    RunState × Except Errors Bool :=
  if isElmInstalledB st v then
    if env.rimrafOk then
      ({ st with dirs := st.dirs.filter (fun d => d ≠ v) }, .ok true)
    else (st, .error .RemovalFailed)
  else (st, .ok false)

/-- The final .catch of install (lines 625-644): when the version
directory exists, remove it and re-raise the original error; a failed
removal replaces the original rejection with RemovalFailed. -/
def installCatch (env : StepEnv) (st : RunState) (v : String)
    (err : InstallResult) : RunState × InstallResult :=
  if isElmInstalledB st v then
    match removeElmVersion env st v with
    | (st2, .ok _) => (st2, err)
    | (st2, .error e) => (st2, .rejected e)
  else (st, err)

/-- Inserting the version directory, as mkdirp creates it when absent. -/
def insertDir (dirs : List String) (v : String) : List String :=
  if dirs.contains v then dirs else v :: dirs

/-- Embeds install of src/src/forest.ts (lines 583-645): mkdirp, npm
init, npm install, npm bin, then the binpath.log write.  The three npm
step failures are thrown inside promise handlers and so reject the
chain with their distinguishing error before the final catch performs
the rollback.  The BinPathWriteFailed throw however happens inside the
fs.writeFile callback, outside any promise executor or handler, so it
becomes an uncaughtException: the chain never settles, no rollback
runs, and the directory is left in place. -/
def install (env : StepEnv) (st : RunState) (v : String) :
    RunState × InstallResult :=
  if !env.mkdirOk then installCatch env st v .rejectedRaw
  else
    let st1 : RunState := { st with dirs := insertDir st.dirs v }
    let st2 : RunState := { st1 with npmRuns := st1.npmRuns + 1 }
    if !env.npmInitOk then installCatch env st2 v (.rejected .NpmInitFailed)
    else
      let st3 : RunState := { st2 with npmRuns := st2.npmRuns + 1 }
      if !env.npmInstallOk then
        installCatch env st3 v (.rejected .NpmElmInstallFailed)
      else
        let st4 : RunState := { st3 with npmRuns := st3.npmRuns + 1 }
        if !env.npmBinOk then installCatch env st4 v (.rejected .NpmBinFailed)
        else if !env.binWriteOk then (st4, .crashed)
        else (st4, .resolved v true)

/-- Claim C8: the claim states that any failing step after directory
creation removes the directory and re-raises the original error for all
four kinds.  Evaluating the code: the three npm-step failures do roll
back and re-raise NpmInitFailed, NpmElmInstallFailed and NpmBinFailed,
but the binpath write failure crashes the process instead - the
directory stays and BinPathWriteFailed never reaches the caller. -/
theorem claim_C8 :
    install ⟨true, false, true, true, true, true⟩ ⟨[], 0⟩ "0.19.0" =
      (⟨[], 1⟩, .rejected .NpmInitFailed)
    ∧ install ⟨true, true, false, true, true, true⟩ ⟨[], 0⟩ "0.19.0" =
        (⟨[], 2⟩, .rejected .NpmElmInstallFailed)
    ∧ install ⟨true, true, true, false, true, true⟩ ⟨[], 0⟩ "0.19.0" =
        (⟨[], 3⟩, .rejected .NpmBinFailed)
    ∧ install ⟨true, true, true, true, false, true⟩ ⟨[], 0⟩ "0.19.0" =
        (⟨["0.19.0"], 3⟩, .crashed) := by
  decide

/-- A promise object as a JS value: the boolean it will eventually
resolve to, which is invisible to any synchronous truthiness test. -/
structure JSPromise (α : Type) where
  value : α
deriving DecidableEq, Repr

/-- isElmInstalled as called (without await) in ensureInstalled of
src/src/forest.ts: the un-awaited promise object. -/
def isElmInstalledP (st : RunState) (v : String) : JSPromise Bool :=
  ⟨isElmInstalledB st v⟩

/-- JS truthiness of a promise object: every object is truthy,
regardless of the value it will resolve to. -/
def jsTruthyObject (_p : JSPromise Bool) : Bool := true

/-- How the ensureInstalled promise settles. -/
inductive EnsureResult where
  | resolved (version : String)
  | rejected (e : Errors)
  | rejectedRaw
  | crashed
deriving DecidableEq, Repr

/-- Embeds ensureInstalled of src/src/forest.ts (lines 836-853).  The
guard is if (isElmInstalled(version)) on the un-awaited promise, so the
guard is always taken.  In the otherwise-dead install branch a
rejection of install is never handled inside the executor, which the
unhandledRejection handler turns into a process exit. -/
def ensureInstalled (env : StepEnv) (st : RunState) (v : String) :
    RunState × EnsureResult :=
  if jsTruthyObject (isElmInstalledP st v) then (st, .resolved v)
  else
    match install env st v with
    | (st2, .resolved _ _) => (st2, .resolved v)
    | (st2, _) => (st2, .crashed)

/-- All external steps succeed. -/
def allStepsOk : StepEnv := ⟨true, true, true, true, true, true⟩

namespace Lib

/-- A JS number that is either an integer value or NaN. -/
abbrev JNum := Option Int

/-- JS parseInt with no radix argument on the strings handled here:
skip leading whitespace, read an optional sign, detect an 0x or 0X
prefix as hexadecimal, then take the longest run of digits; NaN when no
digit follows. -/
def parseIntJS (cs : List Char) : JNum :=
  let cs1 := cs.dropWhile isSpaceChar
  let signAndRest : Int × List Char :=
    match cs1 with
    | '-' :: t => (-1, t)
    | '+' :: t => (1, t)
    | _ => (1, cs1)
  let sign := signAndRest.1
  let body := signAndRest.2
  let isHexDigit : Char → Bool := fun c =>
    isDigitChar c || ('a' ≤ c && c ≤ 'f') || ('A' ≤ c && c ≤ 'F')
  let hexVal : Char → Nat := fun c =>
    if isDigitChar c then digitToNat c
    else if 'a' ≤ c && c ≤ 'f' then c.toNat - 'a'.toNat + 10
    else c.toNat - 'A'.toNat + 10
  match body with
  | '0' :: x :: t =>
    if x = 'x' || x = 'X' then
      let h := t.takeWhile isHexDigit
      if h.isEmpty then none
      else some (sign * Int.ofNat (h.foldl (fun a c => 16 * a + hexVal c) 0))
    else
      let d := body.takeWhile isDigitChar
      some (sign * Int.ofNat (digitsToNat d))
  | _ =>
    let d := body.takeWhile isDigitChar
    if d.isEmpty then none else some (sign * Int.ofNat (digitsToNat d))

/-- JS String.prototype.split with a one-character separator. -/
def splitChar (sep : Char) : List Char → List (List Char)
  | [] => [[]]
  | c :: t =>
    let r := splitChar sep t
    if c = sep then [] :: r
    else
      match r with
      | h :: t2 => (c :: h) :: t2
      | [] => [[c]]

/-- Embeds parseVersion of src/src/lib/forest.ts (lines 261-263):
everything before the first dash, split on dots, each piece through
parseInt. -/
def parseVersion (s : String) : List JNum :=
  ((splitChar '-' s.data).headD []
    |> splitChar '.').map parseIntJS

/-- The string a JS array of such numbers coerces to: NaN renders as the
three letters NaN. -/
def jsKeyJ (t : List JNum) : List Char :=
  joinCommaChars (t.map (fun n =>
    match n with
    | none => ['N', 'a', 'N']
    | some i => (Int.repr i).data))

/-- JS a < v on these arrays. -/
def jsLtJ (a v : List JNum) : Bool := charListLt (jsKeyJ a) (jsKeyJ v)

/-- JS a <= v on these arrays. -/
def jsLeJ (a v : List JNum) : Bool := !charListLt (jsKeyJ v) (jsKeyJ a)

/-- JS a > v on these arrays. -/
def jsGtJ (a v : List JNum) : Bool := charListLt (jsKeyJ v) (jsKeyJ a)

/-- JS a >= v on these arrays. -/
def jsGeJ (a v : List JNum) : Bool := !charListLt (jsKeyJ a) (jsKeyJ v)

/-- The firstOp dictionary of parseVersionConstraint in
src/src/lib/forest.ts (lines 272-277). -/
def firstOpFnJ (op : String) (a : List JNum) : List JNum → Bool :=
  if op = "<" then fun v => jsLtJ a v
  else if op = "<=" then fun v => jsLeJ a v
  else if op = ">" then fun v => jsGtJ a v
  else fun v => jsGeJ a v

/-- The secondOp dictionary (lines 278-283). -/
def secondOpFnJ (op : String) (a : List JNum) : List JNum → Bool :=
  if op = "<" then fun v => jsLtJ v a
  else if op = "<=" then fun v => jsLeJ v a
  else if op = ">" then fun v => jsGtJ v a
  else fun v => jsGeJ v a

/-- Embeds parseVersionConstraint of src/src/lib/forest.ts (lines
265-295): the same two regexes as parseConstraints, with the literals
parsed by the three-component parseVersion. -/
def parseVersionConstraint (constraint : String) :
    Option (List (List JNum → Bool)) :=
  match searchFirst constraint.data, searchSecond constraint.data with
  | some (lit1, op1), some (op2, lit2) =>
    some [firstOpFnJ op1 (parseVersion (String.mk lit1)),
          secondOpFnJ op2 (parseVersion (String.mk lit2))]
  | _, _ => none

/-- Embeds testVersionConstraint (lines 297-300): every predicate holds
of the parsed version. -/
def testVersionConstraint (constraints : List (List JNum → Bool))
    (version : String) : Bool :=
  constraints.all (fun c => c (parseVersion version))

/-- The value Array.prototype.find returns: the first element matching
the predicate, or undefined. -/
inductive JSFound where
  | undef
  | val (s : String)
deriving DecidableEq, Repr

/-- Array.prototype.find. -/
def jsArrayFind (p : String → Bool) : List String → JSFound
  | [] => .undef
  | x :: t => if p x then .val x else jsArrayFind p t

/-- How the selectBestVersion promise settles. -/
inductive SelectOutcome where
  | resolved (b : JSFound)
  | rejected
deriving DecidableEq, Repr

/-- JS strict equality against null: neither undefined nor a string is
identical to null. -/
def jsStrictEqNull (_x : JSFound) : Bool := false

/-- Embeds selectBestVersion of src/src/lib/forest.ts (lines 302-311):
find the first pool entry satisfying the constraints, reject when the
result is identical to null, resolve it otherwise.  Because find yields
undefined rather than null on no match, the rejection branch can never
be taken. -/
def selectBestVersion (versions : List String)
    (constraints : List (List JNum → Bool)) : SelectOutcome :=
  let best := jsArrayFind (fun v => testVersionConstraint constraints v) versions
  if jsStrictEqNull best then .rejected else .resolved best

/-- Parsing a constraint string and selecting from a pool, the
findBestVersion flow of src/src/lib/forest.ts restricted to one pool. -/
def selectBestFor (cstr : String) (versions : List String) :
    Option SelectOutcome :=
  (parseVersionConstraint cstr).map (fun cs => selectBestVersion versions cs)

/-- Embeds installVersion of src/src/lib/forest.ts (lines 70-100).
When the version is already installed the source returns undefined
instead of a promise, which crashes the caller that chains on it;
ensureInstalled only reaches this function when not installed.  Step
failures reject with plain messages. -/
def installVersion (env : StepEnv) (st : RunState) (v : String) :
    RunState × EnsureResult :=
  if isElmInstalledB st v then (st, .crashed)
  else if !env.mkdirOk then (st, .rejectedRaw)
  else
    let st1 : RunState := { st with dirs := insertDir st.dirs v }
    let st2 : RunState := { st1 with npmRuns := st1.npmRuns + 1 }
    if !env.npmInitOk then (st2, .rejectedRaw)
    else
      let st3 : RunState := { st2 with npmRuns := st2.npmRuns + 1 }
      if !env.npmInstallOk then (st3, .rejectedRaw)
      else
        let st4 : RunState := { st3 with npmRuns := st3.npmRuns + 1 }
        if !env.npmBinOk then (st4, .rejectedRaw)
        else if !env.binWriteOk then (st4, .rejectedRaw)
        else (st4, .resolved v)

/-- Embeds ensureInstalled of src/src/lib/forest.ts (lines 145-155):
here isElmInstalled is the synchronous isdir check, so the guard really
tests directory presence; otherwise install and resolve the version. -/
def ensureInstalled (env : StepEnv) (st : RunState) (v : String) :
    RunState × EnsureResult :=
  if isElmInstalledB st v then (st, .resolved v)
  else
    match installVersion env st v with
    | (st2, .resolved _) => (st2, .resolved v)
    | (st2, r) => (st2, r)

end Lib

/-- Claim C5: the claim states that selectBestVersion returns the first
satisfying pool entry and fails with a no-match error when none
qualifies.  The scan part holds, but the error part does not: find
yields undefined on no match, the best === null test is then false, and
the promise resolves undefined instead of rejecting - evaluated here on
the pool [0.19.0] with constraint 0.17.0 <= v < 0.18.0. -/
theorem claim_C5 :
    (∀ (versions : List String) (cs : List (List Lib.JNum → Bool)),
      Lib.selectBestVersion versions cs =
        .resolved (Lib.jsArrayFind (fun v => Lib.testVersionConstraint cs v)
          versions))
    ∧ Lib.selectBestFor "0.17.0 <= v < 0.18.0" ["0.19.0"] =
        some (.resolved .undef)
    ∧ Lib.selectBestFor "0.17.0 <= v < 0.18.0" ["0.17.1", "0.17.0"] =
        some (.resolved (.val "0.17.1")) := by
  refine ⟨?_, by decide, by decide⟩
  intro versions cs
  simp [Lib.selectBestVersion, Lib.jsStrictEqNull]

/-- Claim C7: the claim states that ensureInstalled is a no-op when the
version directory exists and otherwise runs the full install sequence.
In src/src/forest.ts the guard tests the un-awaited isElmInstalled
promise, an object that is always truthy, so ensureInstalled resolves
without ever installing - also when nothing is installed (second
conjunct: empty filesystem, zero npm commands run).  The lib revision
(src/src/lib/forest.ts), whose guard is synchronous, behaves as the
claim describes: its second call in a row is a no-op on the state the
first call produced (third conjunct). -/
theorem claim_C7 :
    (∀ (env : StepEnv) (st : RunState) (v : String),
      ensureInstalled env st v = (st, .resolved v))
    ∧ ensureInstalled allStepsOk ⟨[], 0⟩ "0.19.0" =
        (⟨[], 0⟩, .resolved "0.19.0")
    ∧ (∀ (st : RunState) (v : String),
        Lib.ensureInstalled allStepsOk
            (Lib.ensureInstalled allStepsOk st v).1 v =
          ((Lib.ensureInstalled allStepsOk st v).1, .resolved v)) := by
  have hmain : ∀ (env : StepEnv) (st : RunState) (v : String),
      ensureInstalled env st v = (st, .resolved v) := by
    intro env st v
    simp [ensureInstalled, jsTruthyObject]
  refine ⟨hmain, hmain allStepsOk ⟨[], 0⟩ "0.19.0", ?_⟩
  intro st v
  have hins : ∀ (d : List String) (w : String), w ∈ insertDir d w := by
    intro d w
    by_cases hh : w ∈ d <;> simp [insertDir, hh]
  cases h : isElmInstalledB st v with
  | true =>
    simp [Lib.ensureInstalled, h]
  | false =>
    have h3 : v ∉ st.dirs := by simpa [isElmInstalledB] using h
    simp [Lib.ensureInstalled, Lib.installVersion, isElmInstalledB, h3,
      allStepsOk, hins]

/-- Claim C10: because the major group of VERSION_PATTERN is the
repeated single-digit capture (\d)+, a successfully parsed version
whose major part has several digits gets only the last digit of that
run as its major component; in particular "12.0.0" parses to the same
tuple as "2.0.0". -/
theorem claim_C10 :
    (∀ (s : String) (t : ParsedVersion),
      parseVersionString s = some t →
      1 < (s.data.takeWhile isDigitChar).length →
      t.head? = some (digitToNat ((s.data.takeWhile isDigitChar).getLastD '0')))
    ∧ parseVersionString "12.0.0" = parseVersionString "2.0.0"
    ∧ parseVersionString "12.0.0" = some [2, 0, 0, 0, 0] := by
  refine ⟨?_, by decide, by decide⟩
  intro s t h _
  simp only [parseVersionString] at h
  split at h
  · exact Option.noConfusion h
  · split at h
    · exact Option.noConfusion h
    · split at h
      · exact Option.noConfusion h
      · injection h with h2
        subst h2
        rfl

/-- Witness for claim C10 at the input "12.0.0": the major part has two
digits, the parse succeeds, and the major component is 2, the value of
the last digit alone. -/
theorem claim_C10_witness :
    parseVersionString "12.0.0" = some [2, 0, 0, 0, 0]
    ∧ 1 < (("12.0.0").data.takeWhile isDigitChar).length
    ∧ ([2, 0, 0, 0, 0] : ParsedVersion).head? =
        some (digitToNat ((("12.0.0").data.takeWhile isDigitChar).getLastD '0')) :=
  ⟨by decide, by decide,
    claim_C10.1 "12.0.0" [2, 0, 0, 0, 0] (by decide) (by decide)⟩
